import Mathlib

/-
Shallow embedding of the quoting and risk-control core of the market-making
agent (src/model/as_logic.rs, src/model/risk.rs, src/math/volatility.rs,
src/engine.rs, src/execution/event_loop.rs).

Modelling conventions:
* Rust f64 values are embedded as exact reals; rust_decimal Decimal values
  are also embedded as reals (all decimals occurring here are exactly
  representable).  A separate type F64V additionally models the IEEE special
  values nan and the two infinities with exact-real finite parts, for the
  arithmetic-pathology analysis; gradual rounding error and overflow of the
  finite range are outside the model.
* Stateful methods become functions returning the result together with the
  updated state.  The std mpsc persistence channel and the tokio bounded
  channel are explicit values threaded through the functions that use them.
* Rust f64::round (nearest, ties away from zero) is rustRound below.
-/

open Classical

namespace MMCore

/-- Exchange enum from core.rs. -/
inductive Exchange where
  | Polymarket
  | OpinionLabs
  | Unknown
deriving DecidableEq, Repr

/-- Side enum from core.rs. -/
inductive Side where
  | Buy
  | Sell
deriving DecidableEq, Repr

/-- TradeSignal struct from core.rs; Decimal fields are modelled as reals. -/
structure TradeSignal where
  strategy_id : ℕ
  target_exchange : Exchange
  symbol_id : ℕ
  side : Side
  price : ℝ
  size_usd : ℝ
  logic_tag : ℕ
  created_at_ns : ℤ

/-- StrategyConfig from model/as_logic.rs. -/
structure StrategyConfig where
  risk_aversion_gamma : ℝ
  liquidity_k : ℝ
  min_spread_bps : ℕ
  tick_size : ℝ
  max_inventory_usd : ℝ
  maturity_timestamp_ms : ℤ
  terminal_dumping_factor : ℝ
  closing_window_seconds : ℤ

/-- PersistState from model/as_logic.rs (the ledger snapshot written to disk). -/
structure PersistState where
  inventory_shares : ℝ
  cash_balance : ℝ
  timestamp : ℤ

/-- RollingVolatility from math/volatility.rs: bounded window of log returns
with incremental sums.  The VecDeque is a list whose head is the oldest entry. -/
structure RollingVolatility where
  window_size : ℕ
  returns : List ℝ
  last_price : Option ℝ
  sum : ℝ
  sum_sq : ℝ

/-- RollingVolatility::new. -/
def RollingVolatility.new (window_size : ℕ) : RollingVolatility :=
  { window_size := window_size, returns := [], last_price := none, sum := 0, sum_sq := 0 }

/-- RollingVolatility::update from math/volatility.rs.  Returns the sigma
value together with the updated estimator state.  Mirrors the source line by
line: the log return is computed only when both prices are positive, the
early return fires when the return is zero and the window is still empty
(after last_price has already been overwritten), the window is popped from
the front when it exceeds window_size, and the standard deviation is
sqrt(max(variance, 0)) once at least two samples are held. -/
noncomputable def RollingVolatility.update (v : RollingVolatility) (new_price : ℝ) :
    ℝ × RollingVolatility :=
  let ret : ℝ :=
    match v.last_price with
    | some last => if 0 < last ∧ 0 < new_price then Real.log (new_price / last) else 0
    | none => 0
  let v1 := { v with last_price := some new_price }
  if ret = 0 ∧ v1.returns = [] then (0, v1)
  else
    let pushed := v1.returns ++ [ret]
    let sum1 := v1.sum + ret
    let sum_sq1 := v1.sum_sq + ret * ret
    let popped :=
      if v1.window_size < pushed.length then
        match pushed with
        | [] => (pushed, sum1, sum_sq1)
        | old :: rest => (rest, sum1 - old, sum_sq1 - old * old)
      else (pushed, sum1, sum_sq1)
    let v2 := { v1 with returns := popped.1, sum := popped.2.1, sum_sq := popped.2.2 }
    let n : ℝ := v2.returns.length
    if n < 2 then (0, v2)
    else
      let mean := v2.sum / n
      let variance := v2.sum_sq / n - mean * mean
      (Real.sqrt (max variance 0), v2)

/-- RiskManager from model/risk.rs.  Decimal price bounds are reals here. -/
structure RiskManager where
  max_drawdown_usd : ℝ
  max_order_size_usd : ℝ
  stop_loss_price_floor : ℝ
  stop_loss_price_ceiling : ℝ
  total_pnl : ℝ
  peak_equity_pnl : ℝ
  current_drawdown : ℝ
  is_kill_switch_active : Bool

/-- RiskManager::check_signal (pre-trade filter).  Rejects everything when the
kill switch is active, then fat-finger size, then buying above the ceiling,
then selling below the floor. -/
noncomputable def RiskManager.check_signal (rm : RiskManager) (signal : TradeSignal) : Bool :=
  if rm.is_kill_switch_active then false
  else if rm.max_order_size_usd < signal.size_usd then false
  else if signal.side = Side.Buy ∧ rm.stop_loss_price_ceiling < signal.price then false
  else if signal.side = Side.Sell ∧ signal.price < rm.stop_loss_price_floor then false
  else true

/-- RiskManager::update_pnl_and_check_kill.  Returns whether the kill switch
fired on this call, together with the updated state. -/
noncomputable def RiskManager.update_pnl_and_check_kill (rm : RiskManager) (pnl_change : ℝ) :
    Bool × RiskManager :=
  if rm.is_kill_switch_active then (false, rm)
  else
    let total := rm.total_pnl + pnl_change
    let rm1 :=
      if rm.peak_equity_pnl < total then
        { rm with total_pnl := total, peak_equity_pnl := total, current_drawdown := 0 }
      else
        { rm with total_pnl := total, current_drawdown := rm.peak_equity_pnl - total }
    if rm1.max_drawdown_usd < rm1.current_drawdown then
      (true, { rm1 with is_kill_switch_active := true })
    else (false, rm1)

/-- State of the std::sync::mpsc persistence channel: unbounded queue, send
fails exactly when the receiver has been dropped. -/
structure PersistChannel where
  queue : List PersistState
  receiverAlive : Bool

/-- Sender::send on the persistence channel; the Bool is Ok/Err. -/
def PersistChannel.send (ch : PersistChannel) (p : PersistState) : PersistChannel × Bool :=
  if ch.receiverAlive then ({ ch with queue := ch.queue ++ [p] }, true) else (ch, false)

/-- OpinionGridStrategy from model/as_logic.rs.  persist_sender is true when
the strategy holds Some(sender). -/
structure OpinionGridStrategy where
  cfg : StrategyConfig
  vol_calc : RollingVolatility
  current_inventory_shares : ℝ
  current_cash_balance : ℝ
  last_equity_mark : ℝ
  persist_sender : Bool

/-- OpinionGridStrategy::new. -/
def OpinionGridStrategy.new (cfg : StrategyConfig) (sender : Bool) : OpinionGridStrategy :=
  { cfg := cfg, vol_calc := RollingVolatility.new 100,
    current_inventory_shares := 0, current_cash_balance := 0,
    last_equity_mark := 0, persist_sender := sender }

/-- OpinionGridStrategy::restore_state. -/
def OpinionGridStrategy.restore_state (st : OpinionGridStrategy)
    (saved_inv saved_cash : ℝ) : OpinionGridStrategy :=
  { st with current_inventory_shares := saved_inv, current_cash_balance := saved_cash }

/-- OpinionGridStrategy::on_fill.  Updates the ledger, then sends a snapshot
on the persistence channel when a sender is present; the send result is
discarded exactly as in the source (let _ = tx.send(...)). -/
def OpinionGridStrategy.on_fill (st : OpinionGridStrategy) (ch : PersistChannel)
    (change_shares net_cash_flow : ℝ) (now_ts : ℤ) :
    OpinionGridStrategy × PersistChannel :=
  let st1 := { st with
    current_inventory_shares := st.current_inventory_shares + change_shares,
    current_cash_balance := st.current_cash_balance + net_cash_flow }
  if st.persist_sender then
    let sent := ch.send
      { inventory_shares := st1.current_inventory_shares,
        cash_balance := st1.current_cash_balance, timestamp := now_ts }
    (st1, sent.1)
  else (st1, ch)

/-- OpinionGridStrategy::calculate_equity_change (mark-to-market PnL delta). -/
noncomputable def OpinionGridStrategy.calculate_equity_change (st : OpinionGridStrategy)
    (current_mid_price : ℝ) : ℝ × OpinionGridStrategy :=
  let position_value := st.current_inventory_shares * current_mid_price
  let current_equity := st.current_cash_balance + position_value
  if st.last_equity_mark = 0 ∧ st.current_inventory_shares = 0 ∧
      st.current_cash_balance = 0 then
    (0, { st with last_equity_mark := current_equity })
  else if st.last_equity_mark = 0 then
    (0, { st with last_equity_mark := current_equity })
  else
    (current_equity - st.last_equity_mark, { st with last_equity_mark := current_equity })

/-- Rust f64::round: nearest integer, ties away from zero. -/
noncomputable def rustRound (x : ℝ) : ℤ :=
  if 0 ≤ x then ⌊x + 1 / 2⌋ else ⌈x - 1 / 2⌉

/-- OpinionGridStrategy::round_to_tick: snap the price to the tick grid, then
clamp to the prediction-market band [0.01, 0.99].  The final
Decimal::from_f64_retain(p).unwrap_or(0.5) is the identity here because the
clamped real is always an ordinary finite value. -/
noncomputable def roundToTick (price tick : ℝ) : ℝ :=
  let p := (rustRound (price / tick) : ℝ) * tick
  min (max p 0.01) 0.99

/-- Effective risk aversion from step 3 of calculate_quotes: gamma is blown up
linearly inside the closing window. -/
noncomputable def effectiveGamma (cfg : StrategyConfig) (time_left_ms : ℤ) : ℝ :=
  if time_left_ms < cfg.closing_window_seconds * 1000 then
    let progress : ℝ := 1 - (time_left_ms : ℝ) / ((cfg.closing_window_seconds : ℝ) * 1000)
    cfg.risk_aversion_gamma * (1 + progress * cfg.terminal_dumping_factor)
  else cfg.risk_aversion_gamma

/-- OpinionGridStrategy::calculate_quotes.  now_ms plays the role of
chrono::Utc::now().timestamp_millis().  Returns the (bid, ask) pair and the
strategy with the volatility estimator advanced by this mid price. -/
noncomputable def OpinionGridStrategy.calculate_quotes (st : OpinionGridStrategy)
    (poly_mid_price : ℝ) (now_ms : ℤ) : (ℝ × ℝ) × OpinionGridStrategy :=
  let time_left_ms := st.cfg.maturity_timestamp_ms - now_ms
  if time_left_ms ≤ 0 then ((0, 0), st)
  else
    let t_days : ℝ := (time_left_ms : ℝ) / (1000 * 3600 * 24)
    let effective_gamma := effectiveGamma st.cfg time_left_ms
    let su := st.vol_calc.update poly_mid_price
    let sigma := su.1
    let st1 := { st with vol_calc := su.2 }
    let mid_f64 := poly_mid_price
    let risk_term := st.current_inventory_shares * effective_gamma * (sigma * sigma) *
      max t_days 0.01
    let reservation_price := mid_f64 - risk_term
    let spread_term_1 := effective_gamma * (sigma * sigma) * max t_days 0.01
    let spread_term_2 := (2 / effective_gamma) *
      Real.log (1 + effective_gamma / st.cfg.liquidity_k)
    let half_spread := spread_term_1 + spread_term_2
    let min_half := ((st.cfg.min_spread_bps : ℝ) / 10000) / 2
    let final_half_spread := max half_spread min_half
    let raw_bid := reservation_price - final_half_spread
    let raw_ask := reservation_price + final_half_spread
    ((roundToTick raw_bid st.cfg.tick_size, roundToTick raw_ask st.cfg.tick_size), st1)

/-- Emergency cancel-all sentinel built by send_emergency_cancel in engine.rs. -/
def emergencyCancelSignal (now_ns : ℤ) : TradeSignal :=
  { strategy_id := 0, target_exchange := Exchange.OpinionLabs, symbol_id := 0,
    side := Side.Buy, price := 0, size_usd := 0, logic_tag := 99, created_at_ns := now_ns }

/-- Market-data branch (branch A) of the run_strategy_engine main loop in
engine.rs: derive the mid from top of book, run the mark-to-market risk
update, and when the kill switch did not fire compute quotes, build the two
logic_tag = 1 signals (size 50 USD) and publish exactly the ones that pass
check_signal.  Returns the published signals with the updated strategy and
risk manager. -/
noncomputable def engineTick (st : OpinionGridStrategy) (rm : RiskManager)
    (symbol_id : ℕ) (bids asks : List (ℝ × ℝ)) (now_ms now_ns : ℤ) :
    List TradeSignal × OpinionGridStrategy × RiskManager :=
  let best_bid := ((bids.head?).map Prod.fst).getD 0
  let best_ask := ((asks.head?).map Prod.fst).getD 0
  if best_bid = 0 ∨ best_ask = 0 then ([], st, rm)
  else
    let mid_price := (best_bid + best_ask) / 2
    let ec := st.calculate_equity_change mid_price
    let uk := rm.update_pnl_and_check_kill ec.1
    if uk.1 then ([emergencyCancelSignal now_ns], ec.2, uk.2)
    else
      let cq := ec.2.calculate_quotes mid_price now_ms
      let signals : List TradeSignal :=
        [ { strategy_id := 1, target_exchange := Exchange.OpinionLabs,
            symbol_id := symbol_id, side := Side.Buy, price := cq.1.1,
            size_usd := 50, logic_tag := 1, created_at_ns := now_ns },
          { strategy_id := 1, target_exchange := Exchange.OpinionLabs,
            symbol_id := symbol_id, side := Side.Sell, price := cq.1.2,
            size_usd := 50, logic_tag := 1, created_at_ns := now_ns } ]
      (signals.filter (fun s => uk.2.check_signal s), cq.2, uk.2)

/-
IEEE-f64-with-special-values model, used for the arithmetic-pathology claim.
Finite parts are exact reals (no gradual rounding, no overflow to infinity);
signed zeros are identified, with a zero denominator treated as +0.  What the
model does capture exactly is the propagation behaviour the pathology claim
is about: nan and infinity flowing through -, +, *, /, ln, round, and the
nan-ignoring semantics of Rust f64::max / f64::min.
-/

/-- Rust f64 value: an exact finite real, nan, or a signed infinity. -/
inductive F64V where
  | finite (x : ℝ)
  | nan
  | pinf
  | ninf

/-- Negation on F64V. -/
noncomputable def F64V.neg : F64V → F64V
  | .finite x => .finite (-x)
  | .nan => .nan
  | .pinf => .ninf
  | .ninf => .pinf

/-- Addition on F64V (opposite infinities give nan). -/
noncomputable def F64V.add : F64V → F64V → F64V
  | .nan, _ => .nan
  | _, .nan => .nan
  | .pinf, .ninf => .nan
  | .ninf, .pinf => .nan
  | .pinf, _ => .pinf
  | _, .pinf => .pinf
  | .ninf, _ => .ninf
  | _, .ninf => .ninf
  | .finite x, .finite y => .finite (x + y)

/-- Subtraction on F64V. -/
noncomputable def F64V.sub (a b : F64V) : F64V := a.add b.neg

/-- Multiplication on F64V (zero times infinity gives nan). -/
noncomputable def F64V.mul : F64V → F64V → F64V
  | .nan, _ => .nan
  | _, .nan => .nan
  | .finite x, .finite y => .finite (x * y)
  | .pinf, .pinf => .pinf
  | .pinf, .ninf => .ninf
  | .ninf, .pinf => .ninf
  | .ninf, .ninf => .pinf
  | .pinf, .finite y => if y = 0 then .nan else if 0 < y then .pinf else .ninf
  | .finite x, .pinf => if x = 0 then .nan else if 0 < x then .pinf else .ninf
  | .ninf, .finite y => if y = 0 then .nan else if 0 < y then .ninf else .pinf
  | .finite x, .ninf => if x = 0 then .nan else if 0 < x then .ninf else .pinf

/-- Division on F64V (infinity over infinity and 0/0 give nan; a zero
denominator is treated as +0). -/
noncomputable def F64V.div : F64V → F64V → F64V
  | .nan, _ => .nan
  | _, .nan => .nan
  | .pinf, .pinf => .nan
  | .pinf, .ninf => .nan
  | .ninf, .pinf => .nan
  | .ninf, .ninf => .nan
  | .finite _, .pinf => .finite 0
  | .finite _, .ninf => .finite 0
  | .pinf, .finite y => if 0 ≤ y then .pinf else .ninf
  | .ninf, .finite y => if 0 ≤ y then .ninf else .pinf
  | .finite x, .finite y =>
    if y = 0 then (if x = 0 then .nan else if 0 < x then .pinf else .ninf)
    else .finite (x / y)

/-- Natural log on F64V, as Rust f64::ln: nan for negative arguments and for
nan or negative infinity, negative infinity at zero. -/
noncomputable def F64V.ln : F64V → F64V
  | .nan => .nan
  | .pinf => .pinf
  | .ninf => .nan
  | .finite x => if 0 < x then .finite (Real.log x) else if x = 0 then .ninf else .nan

/-- Rust f64::max: when one operand is nan the other is returned. -/
noncomputable def F64V.fmax : F64V → F64V → F64V
  | .nan, b => b
  | a, .nan => a
  | .pinf, _ => .pinf
  | _, .pinf => .pinf
  | .ninf, b => b
  | a, .ninf => a
  | .finite x, .finite y => .finite (max x y)

/-- Rust f64::min: when one operand is nan the other is returned. -/
noncomputable def F64V.fmin : F64V → F64V → F64V
  | .nan, b => b
  | a, .nan => a
  | .ninf, _ => .ninf
  | _, .ninf => .ninf
  | .pinf, b => b
  | a, .pinf => a
  | .finite x, .finite y => .finite (min x y)

/-- Rust f64::round lifted to F64V. -/
noncomputable def F64V.round : F64V → F64V
  | .finite x => .finite (rustRound x : ℝ)
  | .nan => .nan
  | .pinf => .pinf
  | .ninf => .ninf

/-- Decimal::from_f64_retain(p).unwrap_or(dec!(0.5)): nan and the infinities
have no Decimal image and fall back to 0.5. -/
noncomputable def F64V.toDecimal : F64V → ℝ
  | .finite x => x
  | _ => 0.5

/-- round_to_tick on the special-value model: snap, then clamp with the
nan-ignoring f64 max / min, then convert to Decimal. -/
noncomputable def roundToTickF (price : F64V) (tick : ℝ) : ℝ :=
  let p := (F64V.round (price.div (.finite tick))).mul (.finite tick)
  ((p.fmax (.finite 0.01)).fmin (.finite 0.99)).toDecimal

/-- Reservation price r = mid - q * gamma_eff * sigma^2 * max(T, 0.01) on the
special-value model; only the inventory q carries a possibly non-finite value
(it is restored verbatim from disk), the other factors are finite. -/
noncomputable def reservationPriceF (q : F64V) (effective_gamma sigma t_days mid : ℝ) : F64V :=
  (F64V.finite mid).sub
    (((q.mul (.finite effective_gamma)).mul (.finite (sigma * sigma))).mul
      (.finite (max t_days 0.01)))

/-- calculate_quotes on the special-value model: identical control flow to
OpinionGridStrategy.calculate_quotes, with the inventory as an F64V so that
nan / infinity can arise and propagate exactly as in the f64 source. -/
noncomputable def calculateQuotesF (cfg : StrategyConfig) (q : F64V)
    (vol : RollingVolatility) (poly_mid_price : ℝ) (now_ms : ℤ) : ℝ × ℝ :=
  let time_left_ms := cfg.maturity_timestamp_ms - now_ms
  if time_left_ms ≤ 0 then (0, 0)
  else
    let t_days : ℝ := (time_left_ms : ℝ) / (1000 * 3600 * 24)
    let effective_gamma := effectiveGamma cfg time_left_ms
    let sigma := (vol.update poly_mid_price).1
    let reservation_price := reservationPriceF q effective_gamma sigma t_days poly_mid_price
    let spread_term_1 : F64V := .finite (effective_gamma * (sigma * sigma) * max t_days 0.01)
    let spread_term_2 : F64V :=
      ((F64V.finite 2).div (.finite effective_gamma)).mul
        (((F64V.finite 1).add ((F64V.finite effective_gamma).div (.finite cfg.liquidity_k))).ln)
    let half_spread := spread_term_1.add spread_term_2
    let min_half : ℝ := ((cfg.min_spread_bps : ℝ) / 10000) / 2
    let final_half_spread := half_spread.fmax (.finite min_half)
    let raw_bid := reservation_price.sub final_half_spread
    let raw_ask := reservation_price.add final_half_spread
    (roundToTickF raw_bid cfg.tick_size, roundToTickF raw_ask cfg.tick_size)

/-
Execution pipeline, Stage A to Stage B handoff (src/execution/event_loop.rs).
The tokio bounded mpsc channel is modelled by its queue and capacity; orders
are abstracted to numbers.  tokio Sender::send(v).await completes with Err
exactly when the receiver has been dropped; when the channel is full and open
it does not complete until capacity frees up, which the one-step model
renders as the pending outcome.
-/

/-- Bounded tokio mpsc channel state for the Stage A to Stage B handoff. -/
structure BoundedChannel where
  capacity : ℕ
  queue : List ℕ
  receiverClosed : Bool
deriving DecidableEq, Repr

/-- Outcome of one attempt of tokio Sender::send(v).await. -/
inductive SendOutcome where
  | delivered (ch : BoundedChannel)
  | closedError
  | pending
deriving DecidableEq, Repr

/-- One-step semantics of tokio Sender::send(v).await as invoked by the
signing task: error when the receiver is gone, enqueue when capacity is
available, otherwise remain suspended. -/
def tokioSend (ch : BoundedChannel) (v : ℕ) : SendOutcome :=
  if ch.receiverClosed then .closedError
  else if ch.queue.length < ch.capacity then
    .delivered { ch with queue := ch.queue ++ [v] }
  else .pending

/-- The post-signing handoff in the signing task of run_execution_loop: a
completed send hands the order to Stage B, the Err branch logs the warning
and drops the order, and a pending send leaves the task suspended (none). -/
def signerForward (ch : BoundedChannel) (v : ℕ) : Option (BoundedChannel × Bool) :=
  match tokioSend ch v with
  | .delivered ch2 => some (ch2, true)
  | .closedError => some (ch, false)
  | .pending => none

/-- Capacity of the Stage A to Stage B channel in run_execution_loop. -/
def stageChannelCapacity : ℕ := 1000

/-- Specification-side description of one RollingVolatility::update call, in
the vocabulary of the spec (push the return, pop the oldest when the window
exceeds N, sigma = sqrt(max(0, sum_sq/n - (sum/n)^2)) for n at least 2),
amended with the warm-up exception: when the return is zero and the window is
still empty the call only records last_price and reports zero. -/
noncomputable def volUpdateSpec (v : RollingVolatility) (price : ℝ) : ℝ × RollingVolatility :=
  let r : ℝ :=
    match v.last_price with
    | some last => if 0 < last ∧ 0 < price then Real.log (price / last) else 0
    | none => 0
  if r = 0 ∧ v.returns = [] then (0, { v with last_price := some price })
  else
    let pushed := v.returns ++ [r]
    let exceeded := v.window_size < pushed.length
    let w := if exceeded then pushed.tail else pushed
    let s := if exceeded then v.sum + r - pushed.headI else v.sum + r
    let sq := if exceeded then v.sum_sq + r * r - pushed.headI * pushed.headI
      else v.sum_sq + r * r
    let n : ℝ := w.length
    let sigma :=
      if 2 ≤ w.length then Real.sqrt (max 0 (sq / n - s / n * (s / n))) else 0
    (sigma, { v with last_price := some price, returns := w, sum := s, sum_sq := sq })

/-- State component of one update_pnl_and_check_kill call. -/
noncomputable def riskStep (rm : RiskManager) (d : ℝ) : RiskManager :=
  (rm.update_pnl_and_check_kill d).2

/-- Risk-manager state after a sequence of update_pnl_and_check_kill calls. -/
noncomputable def riskRun (rm : RiskManager) (ds : List ℝ) : RiskManager :=
  ds.foldl riskStep rm

/-- High-water-mark invariant of the risk state (spec I3). -/
def RiskInv (rm : RiskManager) : Prop :=
  rm.total_pnl ≤ rm.peak_equity_pnl ∧
  rm.current_drawdown = rm.peak_equity_pnl - rm.total_pnl ∧
  0 ≤ rm.current_drawdown

/-- Strategy and persistence-channel state after a sequence of on_fill calls,
each fill being (share_change, net_cash_flow, timestamp). -/
def fillsRun (st : OpinionGridStrategy) (ch : PersistChannel) :
    List (ℝ × ℝ × ℤ) → OpinionGridStrategy × PersistChannel
  | [] => (st, ch)
  | f :: fs => fillsRun (st.on_fill ch f.1 f.2.1 f.2.2).1 (st.on_fill ch f.1 f.2.1 f.2.2).2 fs

/-- Configuration of scenario S1: gamma 0.005, k 5000, min spread 100 bps,
tick 0.01, one-hour closing window, maturity 30 days after epoch 0. -/
def cfgS1 : StrategyConfig :=
  { risk_aversion_gamma := 0.005, liquidity_k := 5000, min_spread_bps := 100,
    tick_size := 0.01, max_inventory_usd := 2000,
    maturity_timestamp_ms := 2592000000, terminal_dumping_factor := 10,
    closing_window_seconds := 3600 }

/-- Fresh strategy for scenario S1 (flat book, cold start). -/
def stS1 : OpinionGridStrategy := OpinionGridStrategy.new cfgS1 false

/-- Risk manager state used in the concrete engine evaluations: limits 100
USD drawdown, 500 USD order size, price band [0.02, 0.98], fresh PnL state. -/
def rmW : RiskManager :=
  { max_drawdown_usd := 100, max_order_size_usd := 500,
    stop_loss_price_floor := 0.02, stop_loss_price_ceiling := 0.98,
    total_pnl := 0, peak_equity_pnl := 0, current_drawdown := 0,
    is_kill_switch_active := false }

/-- Risk manager state whose kill switch has already fired. -/
def rmKilled : RiskManager :=
  { max_drawdown_usd := 100, max_order_size_usd := 500,
    stop_loss_price_floor := 0.02, stop_loss_price_ceiling := 0.98,
    total_pnl := -30, peak_equity_pnl := 10, current_drawdown := 40,
    is_kill_switch_active := true }

/-- Sample market-make signal used to instantiate universally quantified
signal arguments. -/
def sigW : TradeSignal :=
  { strategy_id := 1, target_exchange := Exchange.OpinionLabs, symbol_id := 42,
    side := Side.Buy, price := 0.5, size_usd := 50, logic_tag := 1, created_at_ns := 7 }

/-- Stage A to Stage B channel holding 1000 queued orders with a live
receiver: the failing input of the backpressure claim. -/
def fullStageChannel : BoundedChannel :=
  { capacity := stageChannelCapacity, queue := List.replicate 1000 0, receiverClosed := false }

/-- Stage A to Stage B channel whose receiver has been dropped. -/
def closedStageChannel : BoundedChannel :=
  { capacity := stageChannelCapacity, queue := [], receiverClosed := true }

lemma update_pnl_killed (rm : RiskManager) (h : rm.is_kill_switch_active = true) (d : ℝ) :
    rm.update_pnl_and_check_kill d = (false, rm) := by
  unfold RiskManager.update_pnl_and_check_kill
  rw [if_pos h]

lemma check_signal_killed (rm : RiskManager) (h : rm.is_kill_switch_active = true)
    (s : TradeSignal) : rm.check_signal s = false := by
  unfold RiskManager.check_signal
  rw [if_pos h]

lemma riskRun_killed (rm : RiskManager) (h : rm.is_kill_switch_active = true)
    (ds : List ℝ) : riskRun rm ds = rm := by
  induction ds with
  | nil => rfl
  | cons d ds ih =>
    show riskRun (riskStep rm d) ds = rm
    have hs : riskStep rm d = rm := by
      unfold riskStep
      rw [update_pnl_killed rm h d]
    rw [hs, ih]

lemma riskStep_inv (rm : RiskManager) (h : RiskInv rm) (d : ℝ) :
    RiskInv (riskStep rm d) ∧ rm.peak_equity_pnl ≤ (riskStep rm d).peak_equity_pnl := by
  obtain ⟨h1, h2, h3⟩ := h
  by_cases hk : rm.is_kill_switch_active = true
  · simp only [riskStep, RiskManager.update_pnl_and_check_kill, RiskInv, if_pos hk]
    exact ⟨⟨h1, h2, h3⟩, le_refl _⟩
  · by_cases hp : rm.peak_equity_pnl < rm.total_pnl + d
    · simp only [riskStep, RiskManager.update_pnl_and_check_kill, RiskInv,
        if_neg hk, if_pos hp]
      by_cases hd : rm.max_drawdown_usd < (0 : ℝ)
      · simp only [if_pos hd]
        refine ⟨⟨?_, ?_, ?_⟩, ?_⟩ <;> first | trivial | linarith
      · simp only [if_neg hd]
        refine ⟨⟨?_, ?_, ?_⟩, ?_⟩ <;> first | trivial | linarith
    · simp only [riskStep, RiskManager.update_pnl_and_check_kill, RiskInv,
        if_neg hk, if_neg hp]
      push_neg at hp
      by_cases hd : rm.max_drawdown_usd < rm.peak_equity_pnl - (rm.total_pnl + d)
      · simp only [if_pos hd]
        refine ⟨⟨?_, ?_, ?_⟩, ?_⟩ <;> first | trivial | linarith
      · simp only [if_neg hd]
        refine ⟨⟨?_, ?_, ?_⟩, ?_⟩ <;> first | trivial | linarith

lemma riskRun_inv : ∀ (ds : List ℝ) (rm : RiskManager), RiskInv rm →
    RiskInv (riskRun rm ds) ∧ rm.peak_equity_pnl ≤ (riskRun rm ds).peak_equity_pnl := by
  intro ds
  induction ds with
  | nil => exact fun rm h => ⟨h, le_refl _⟩
  | cons d ds ih =>
    intro rm h
    have hs := riskStep_inv rm h d
    have ht := ih (riskStep rm d) hs.1
    exact ⟨ht.1, le_trans hs.2 ht.2⟩

/-- Claim C2: once the kill switch is active it stays active under every
further sequence of update_pnl_and_check_kill calls, every check_signal
returns false, and every further update_pnl_and_check_kill call returns
false and leaves the whole state, total_pnl included, unchanged. -/
theorem kill_switch_latched (rm : RiskManager) (h : rm.is_kill_switch_active = true)
    (ds : List ℝ) :
    (riskRun rm ds).is_kill_switch_active = true ∧
    (∀ s : TradeSignal, (riskRun rm ds).check_signal s = false) ∧
    (∀ d : ℝ, (riskRun rm ds).update_pnl_and_check_kill d = (false, riskRun rm ds)) ∧
    (riskRun rm ds).total_pnl = rm.total_pnl := by
  rw [riskRun_killed rm h ds]
  exact ⟨h, check_signal_killed rm h, update_pnl_killed rm h, rfl⟩

/-- Witness for C2 at a concrete killed state and concrete later calls. -/
theorem kill_switch_latched_witness :
    (riskRun rmKilled [5, -7]).is_kill_switch_active = true ∧
    (riskRun rmKilled [5, -7]).check_signal sigW = false ∧
    (riskRun rmKilled [5, -7]).update_pnl_and_check_kill 3 = (false, riskRun rmKilled [5, -7]) ∧
    (riskRun rmKilled [5, -7]).total_pnl = rmKilled.total_pnl :=
  ⟨(kill_switch_latched rmKilled rfl [5, -7]).1,
   (kill_switch_latched rmKilled rfl [5, -7]).2.1 sigW,
   (kill_switch_latched rmKilled rfl [5, -7]).2.2.1 3,
   (kill_switch_latched rmKilled rfl [5, -7]).2.2.2⟩

/-- Claim C4: from any state with the high-water-mark invariant, after every
sequence of update_pnl_and_check_kill calls the state still satisfies
peak_equity_pnl at least total_pnl, current_drawdown equal to the difference
and nonnegative, and peak_equity_pnl never decreased. -/
theorem drawdown_invariant (rm : RiskManager) (h : RiskInv rm) (ds : List ℝ) :
    (riskRun rm ds).total_pnl ≤ (riskRun rm ds).peak_equity_pnl ∧
    (riskRun rm ds).current_drawdown
      = (riskRun rm ds).peak_equity_pnl - (riskRun rm ds).total_pnl ∧
    0 ≤ (riskRun rm ds).current_drawdown ∧
    rm.peak_equity_pnl ≤ (riskRun rm ds).peak_equity_pnl := by
  have hr := riskRun_inv ds rm h
  exact ⟨hr.1.1, hr.1.2.1, hr.1.2.2, hr.2⟩

/-- Witness for C4 on the PnL trajectory of scenario S4 from the fresh state. -/
theorem drawdown_invariant_witness :
    (riskRun rmW [5, 5, 5, -20, -10]).total_pnl
      ≤ (riskRun rmW [5, 5, 5, -20, -10]).peak_equity_pnl ∧
    (riskRun rmW [5, 5, 5, -20, -10]).current_drawdown
      = (riskRun rmW [5, 5, 5, -20, -10]).peak_equity_pnl
        - (riskRun rmW [5, 5, 5, -20, -10]).total_pnl ∧
    0 ≤ (riskRun rmW [5, 5, 5, -20, -10]).current_drawdown ∧
    rmW.peak_equity_pnl ≤ (riskRun rmW [5, 5, 5, -20, -10]).peak_equity_pnl :=
  drawdown_invariant rmW ⟨le_refl 0, by norm_num [rmW], le_refl 0⟩ [5, 5, 5, -20, -10]

lemma on_fill_fields (st : OpinionGridStrategy) (ch : PersistChannel) (a b : ℝ) (ts : ℤ) :
    (st.on_fill ch a b ts).1 =
      { st with current_inventory_shares := st.current_inventory_shares + a,
                current_cash_balance := st.current_cash_balance + b } := by
  unfold OpinionGridStrategy.on_fill
  split <;> rfl

lemma equity_change_frame (st : OpinionGridStrategy) (mid : ℝ) :
    (st.calculate_equity_change mid).2.current_inventory_shares
        = st.current_inventory_shares ∧
    (st.calculate_equity_change mid).2.current_cash_balance = st.current_cash_balance := by
  unfold OpinionGridStrategy.calculate_equity_change
  split
  · exact ⟨rfl, rfl⟩
  · split
    · exact ⟨rfl, rfl⟩
    · exact ⟨rfl, rfl⟩

lemma quotes_frame (st : OpinionGridStrategy) (mid : ℝ) (now_ms : ℤ) :
    (st.calculate_quotes mid now_ms).2.current_inventory_shares
        = st.current_inventory_shares ∧
    (st.calculate_quotes mid now_ms).2.current_cash_balance = st.current_cash_balance := by
  unfold OpinionGridStrategy.calculate_quotes
  by_cases hT : st.cfg.maturity_timestamp_ms - now_ms ≤ 0
  · simp only [if_pos hT]
    exact ⟨trivial, trivial⟩
  · simp only [if_neg hT]
    exact ⟨trivial, trivial⟩

lemma fillsRun_ledger : ∀ (fills : List (ℝ × ℝ × ℤ)) (st : OpinionGridStrategy)
    (ch : PersistChannel),
    (fillsRun st ch fills).1.current_inventory_shares
      = st.current_inventory_shares + (fills.map fun f => f.1).sum ∧
    (fillsRun st ch fills).1.current_cash_balance
      = st.current_cash_balance + (fills.map fun f => f.2.1).sum := by
  intro fills
  induction fills with
  | nil => intro st ch; simp [fillsRun]
  | cons f fs ih =>
    intro st ch
    have hr := ih (st.on_fill ch f.1 f.2.1 f.2.2).1 (st.on_fill ch f.1 f.2.1 f.2.2).2
    rw [on_fill_fields] at hr
    have hstep : fillsRun st ch (f :: fs)
        = fillsRun (st.on_fill ch f.1 f.2.1 f.2.2).1 (st.on_fill ch f.1 f.2.1 f.2.2).2 fs :=
      rfl
    rw [hstep, on_fill_fields st ch f.1 f.2.1 f.2.2]
    constructor
    · rw [hr.1]
      simp only [List.map_cons, List.sum_cons]
      ring
    · rw [hr.2]
      simp only [List.map_cons, List.sum_cons]
      ring

/-- Claim C5: from a restored ledger (inv0, cash0), after any sequence of
fills the cash balance is cash0 plus the sum of the net cash flows and the
inventory is inv0 plus the sum of the share changes; the two other ledger
readers, calculate_equity_change and calculate_quotes, never change these
fields. -/
theorem ledger_accounting (st0 : OpinionGridStrategy) (ch : PersistChannel)
    (inv0 cash0 : ℝ) (fills : List (ℝ × ℝ × ℤ)) :
    ((fillsRun (st0.restore_state inv0 cash0) ch fills).1.current_inventory_shares
        = inv0 + (fills.map fun f => f.1).sum) ∧
    ((fillsRun (st0.restore_state inv0 cash0) ch fills).1.current_cash_balance
        = cash0 + (fills.map fun f => f.2.1).sum) ∧
    (∀ (st : OpinionGridStrategy) (mid : ℝ),
        (st.calculate_equity_change mid).2.current_inventory_shares
            = st.current_inventory_shares ∧
        (st.calculate_equity_change mid).2.current_cash_balance
            = st.current_cash_balance) ∧
    (∀ (st : OpinionGridStrategy) (mid : ℝ) (now_ms : ℤ),
        (st.calculate_quotes mid now_ms).2.current_inventory_shares
            = st.current_inventory_shares ∧
        (st.calculate_quotes mid now_ms).2.current_cash_balance
            = st.current_cash_balance) := by
  have h := fillsRun_ledger fills (st0.restore_state inv0 cash0) ch
  exact ⟨h.1, h.2, equity_change_frame, quotes_frame⟩

/-- Claim C10: on_fill always applies exactly the ledger delta, regardless of
the persistence channel state (the send result is discarded), and changes no
strategy field other than the two ledger fields. -/
theorem on_fill_frame (st : OpinionGridStrategy) (ch : PersistChannel) (a b : ℝ) (ts : ℤ) :
    (st.on_fill ch a b ts).1.current_inventory_shares = st.current_inventory_shares + a ∧
    (st.on_fill ch a b ts).1.current_cash_balance = st.current_cash_balance + b ∧
    (st.on_fill ch a b ts).1.cfg = st.cfg ∧
    (st.on_fill ch a b ts).1.vol_calc = st.vol_calc ∧
    (st.on_fill ch a b ts).1.last_equity_mark = st.last_equity_mark ∧
    (st.on_fill ch a b ts).1.persist_sender = st.persist_sender ∧
    (∀ ch2 : PersistChannel, (st.on_fill ch2 a b ts).1 = (st.on_fill ch a b ts).1) := by
  rw [on_fill_fields]
  refine ⟨rfl, rfl, rfl, rfl, rfl, rfl, fun ch2 => ?_⟩
  exact on_fill_fields st ch2 a b ts

/-- Claim C7 (code behaviour at the failing input): with the Stage A to
Stage B channel full and its receiver alive, the send performed by the
signing task remains pending, so the task suspends and nothing is dropped;
the drop-with-warning branch is reached only when the receiver is gone. -/
theorem signer_send_blocks_when_full :
    tokioSend fullStageChannel 7 = SendOutcome.pending ∧
    signerForward fullStageChannel 7 = none ∧
    signerForward closedStageChannel 7
      = some (closedStageChannel, false) := by
  have h1 : tokioSend fullStageChannel 7 = SendOutcome.pending := by
    simp only [tokioSend, fullStageChannel, stageChannelCapacity, List.length_replicate]
    norm_num
  have h2 : signerForward fullStageChannel 7 = none := by
    unfold signerForward
    rw [h1]
  exact ⟨h1, h2, rfl⟩

lemma rustRound_mono {x y : ℝ} (h : x ≤ y) : rustRound x ≤ rustRound y := by
  unfold rustRound
  by_cases hx : (0:ℝ) ≤ x
  · rw [if_pos hx, if_pos (le_trans hx h)]
    exact Int.floor_mono (by linarith)
  · rw [if_neg hx]
    by_cases hy : (0:ℝ) ≤ y
    · rw [if_pos hy]
      have h1 : (⌈x - 1 / 2⌉ : ℤ) ≤ 0 := by
        apply Int.ceil_le.mpr
        push_cast
        push_neg at hx
        linarith
      have h2 : (0 : ℤ) ≤ ⌊y + 1 / 2⌋ := by
        apply Int.le_floor.mpr
        push_cast
        linarith
      omega
    · rw [if_neg hy]
      exact Int.ceil_mono (by linarith)

lemma rustRound_eq {x : ℝ} {n : ℤ} (h0 : (0:ℝ) ≤ x) (h1 : (n : ℝ) ≤ x + 1 / 2)
    (h2 : x + 1 / 2 < n + 1) : rustRound x = n := by
  unfold rustRound
  rw [if_pos h0]
  exact Int.floor_eq_iff.mpr ⟨h1, h2⟩

lemma roundToTick_bounds (p tick : ℝ) :
    0.01 ≤ roundToTick p tick ∧ roundToTick p tick ≤ 0.99 := by
  unfold roundToTick
  exact ⟨le_min (le_max_right _ _) (by norm_num), min_le_right _ _⟩

lemma roundToTick_mono {p q tick : ℝ} (ht : 0 < tick) (h : p ≤ q) :
    roundToTick p tick ≤ roundToTick q tick := by
  unfold roundToTick
  have hd : p / tick ≤ q / tick := by gcongr
  have hr : ((rustRound (p / tick) : ℤ) : ℝ) ≤ ((rustRound (q / tick) : ℤ) : ℝ) := by
    exact_mod_cast rustRound_mono hd
  have hm : (rustRound (p / tick) : ℝ) * tick ≤ (rustRound (q / tick) : ℝ) * tick :=
    mul_le_mul_of_nonneg_right hr (le_of_lt ht)
  exact min_le_min (max_le_max hm (le_refl _)) (le_refl _)

/-- Tick alignment in the sense of the quote-bounds claim, weakened at the two
clip boundaries: the emitted price is an integer multiple of the tick unless
the [0.01, 0.99] clamp replaced it with a boundary value. -/
def tickAligned (x tick : ℝ) : Prop :=
  (∃ n : ℤ, x = (n : ℝ) * tick) ∨ x = 0.01 ∨ x = 0.99

lemma roundToTick_aligned (p tick : ℝ) : tickAligned (roundToTick p tick) tick := by
  simp only [roundToTick, tickAligned]
  rcases le_total ((rustRound (p / tick) : ℝ) * tick) 0.01 with h1 | h1
  · right; left
    rw [max_eq_right h1, min_eq_left (by norm_num)]
  · rcases le_total ((rustRound (p / tick) : ℝ) * tick) 0.99 with h2 | h2
    · left
      exact ⟨rustRound (p / tick), by rw [max_eq_left h1, min_eq_left h2]⟩
    · right; right
      rw [max_eq_left h1, min_eq_right h2]

lemma roundToTick_of_bounds {p tick : ℝ} {n : ℤ} (h0 : (0:ℝ) ≤ p / tick)
    (h1 : (n : ℝ) ≤ p / tick + 1 / 2) (h2 : p / tick + 1 / 2 < n + 1)
    (hlo : 0.01 ≤ (n : ℝ) * tick) (hhi : (n : ℝ) * tick ≤ 0.99) :
    roundToTick p tick = (n : ℝ) * tick := by
  simp only [roundToTick]
  rw [rustRound_eq h0 h1 h2, max_eq_left hlo, min_eq_left hhi]

lemma roundToTick_clamp_hi {p tick : ℝ} {n : ℤ} (h0 : (0:ℝ) ≤ p / tick)
    (h1 : (n : ℝ) ≤ p / tick + 1 / 2) (h2 : p / tick + 1 / 2 < n + 1)
    (hhi : 0.99 ≤ (n : ℝ) * tick) : roundToTick p tick = 0.99 := by
  simp only [roundToTick]
  rw [rustRound_eq h0 h1 h2, max_eq_left (le_trans (by norm_num) hhi), min_eq_right hhi]

/-- Sigma produced inside calculate_quotes (the volatility update on the mid). -/
noncomputable def quoteSigma (st : OpinionGridStrategy) (mid : ℝ) : ℝ :=
  (st.vol_calc.update mid).1

/-- Reservation price computed inside calculate_quotes. -/
noncomputable def quoteReservation (st : OpinionGridStrategy) (mid : ℝ) (now_ms : ℤ) : ℝ :=
  mid - st.current_inventory_shares *
    effectiveGamma st.cfg (st.cfg.maturity_timestamp_ms - now_ms) *
    (quoteSigma st mid * quoteSigma st mid) *
    max (((st.cfg.maturity_timestamp_ms - now_ms : ℤ) : ℝ) / (1000 * 3600 * 24)) 0.01

/-- Final half spread computed inside calculate_quotes (after the bps floor). -/
noncomputable def quoteHalf (st : OpinionGridStrategy) (mid : ℝ) (now_ms : ℤ) : ℝ :=
  max (effectiveGamma st.cfg (st.cfg.maturity_timestamp_ms - now_ms) *
        (quoteSigma st mid * quoteSigma st mid) *
        max (((st.cfg.maturity_timestamp_ms - now_ms : ℤ) : ℝ) / (1000 * 3600 * 24)) 0.01 +
      2 / effectiveGamma st.cfg (st.cfg.maturity_timestamp_ms - now_ms) *
        Real.log (1 + effectiveGamma st.cfg (st.cfg.maturity_timestamp_ms - now_ms) /
          st.cfg.liquidity_k))
    (((st.cfg.min_spread_bps : ℝ) / 10000) / 2)

lemma quoteHalf_nonneg (st : OpinionGridStrategy) (mid : ℝ) (now_ms : ℤ) :
    0 ≤ quoteHalf st mid now_ms := by
  unfold quoteHalf
  have hb : (0:ℝ) ≤ ((st.cfg.min_spread_bps : ℝ) / 10000) / 2 := by positivity
  exact le_trans hb (le_max_right _ _)

lemma calculate_quotes_pos (st : OpinionGridStrategy) (mid : ℝ) (now_ms : ℤ)
    (hT : 0 < st.cfg.maturity_timestamp_ms - now_ms) :
    (st.calculate_quotes mid now_ms).1
      = (roundToTick (quoteReservation st mid now_ms - quoteHalf st mid now_ms)
           st.cfg.tick_size,
         roundToTick (quoteReservation st mid now_ms + quoteHalf st mid now_ms)
           st.cfg.tick_size) := by
  unfold OpinionGridStrategy.calculate_quotes quoteReservation quoteHalf quoteSigma
  rw [if_neg (not_le.mpr hT)]

lemma vol_update_fresh (n : ℕ) (p : ℝ) :
    (RollingVolatility.new n).update p
      = (0, { window_size := n, returns := [], last_price := some p,
              sum := 0, sum_sq := 0 }) := by
  unfold RollingVolatility.update RollingVolatility.new
  simp

lemma log_term_small : 2 / 0.005 * Real.log (1 + 0.005 / 5000) ≤ 0.005 := by
  have h1 : Real.log (1 + 0.005 / 5000) ≤ 0.005 / 5000 := by
    have h := Real.log_le_sub_one_of_pos (x := 1 + 0.005 / 5000) (by norm_num)
    linarith
  linarith

lemma quotes_eval_cold (st : OpinionGridStrategy) (mid : ℝ)
    (hcfg : st.cfg = cfgS1) (hvol : st.vol_calc = RollingVolatility.new 100)
    (hinv : st.current_inventory_shares = 0) :
    (st.calculate_quotes mid 0).1
      = (roundToTick (mid - 0.005) 0.01, roundToTick (mid + 0.005) 0.01) := by
  have hT : (0:ℤ) < st.cfg.maturity_timestamp_ms - 0 := by
    rw [hcfg]
    norm_num [cfgS1]
  have hσ : quoteSigma st mid = 0 := by
    unfold quoteSigma
    rw [hvol, vol_update_fresh]
  have hγ : effectiveGamma st.cfg (st.cfg.maturity_timestamp_ms - 0) = 0.005 := by
    rw [hcfg]
    simp only [effectiveGamma, cfgS1]
    norm_num
  have hres : quoteReservation st mid 0 = mid := by
    unfold quoteReservation
    rw [hinv]
    ring
  have hhalf : quoteHalf st mid 0 = 0.005 := by
    unfold quoteHalf
    rw [hσ, hγ, hcfg]
    have hk : cfgS1.liquidity_k = (5000:ℝ) := rfl
    have hbps : ((cfgS1.min_spread_bps : ℕ) : ℝ) = 100 := by
      norm_num [cfgS1]
    rw [hk, hbps]
    have h0 : (0.005:ℝ) * (0 * 0) *
        max (((cfgS1.maturity_timestamp_ms - 0 : ℤ) : ℝ) / (1000 * 3600 * 24)) 0.01 = 0 := by
      ring
    have hA : (0.005:ℝ) * (0 * 0) *
        max (((cfgS1.maturity_timestamp_ms - 0 : ℤ) : ℝ) / (1000 * 3600 * 24)) 0.01 +
        2 / 0.005 * Real.log (1 + 0.005 / 5000) ≤ 100 / 10000 / 2 := by
      have hl := log_term_small
      linarith
    rw [max_eq_right hA]
    norm_num
  rw [calculate_quotes_pos st mid 0 hT, hres, hhalf, hcfg]
  rfl

/-- Claim C1 (amended): whenever time to maturity is positive and the tick is
positive, both returned quotes lie in [0.01, 0.99], bid is at most ask, and
each quote is tick aligned up to the clip boundaries; the function performs
no crossed-quote suppression, so bid may equal ask and the (0, 0) no-quote is
produced only for nonpositive time to maturity. -/
theorem calculate_quotes_bounds_amended (st : OpinionGridStrategy) (mid : ℝ) (now_ms : ℤ)
    (htick : 0 < st.cfg.tick_size) (hT : 0 < st.cfg.maturity_timestamp_ms - now_ms) :
    0.01 ≤ (st.calculate_quotes mid now_ms).1.1 ∧
    (st.calculate_quotes mid now_ms).1.1 ≤ 0.99 ∧
    0.01 ≤ (st.calculate_quotes mid now_ms).1.2 ∧
    (st.calculate_quotes mid now_ms).1.2 ≤ 0.99 ∧
    (st.calculate_quotes mid now_ms).1.1 ≤ (st.calculate_quotes mid now_ms).1.2 ∧
    tickAligned (st.calculate_quotes mid now_ms).1.1 st.cfg.tick_size ∧
    tickAligned (st.calculate_quotes mid now_ms).1.2 st.cfg.tick_size := by
  rw [calculate_quotes_pos st mid now_ms hT]
  refine ⟨(roundToTick_bounds _ _).1, (roundToTick_bounds _ _).2,
    (roundToTick_bounds _ _).1, (roundToTick_bounds _ _).2, ?_,
    roundToTick_aligned _ _, roundToTick_aligned _ _⟩
  exact roundToTick_mono htick (by linarith [quoteHalf_nonneg st mid now_ms])

/-- Witness for the amended C1 at the concrete S1 state with mid 0.3. -/
theorem calculate_quotes_bounds_amended_witness :
    0.01 ≤ (stS1.calculate_quotes 0.3 0).1.1 ∧
    (stS1.calculate_quotes 0.3 0).1.1 ≤ 0.99 ∧
    0.01 ≤ (stS1.calculate_quotes 0.3 0).1.2 ∧
    (stS1.calculate_quotes 0.3 0).1.2 ≤ 0.99 ∧
    (stS1.calculate_quotes 0.3 0).1.1 ≤ (stS1.calculate_quotes 0.3 0).1.2 ∧
    tickAligned (stS1.calculate_quotes 0.3 0).1.1 stS1.cfg.tick_size ∧
    tickAligned (stS1.calculate_quotes 0.3 0).1.2 stS1.cfg.tick_size :=
  calculate_quotes_bounds_amended stS1 0.3 0
    (by norm_num [stS1, OpinionGridStrategy.new, cfgS1])
    (by norm_num [stS1, OpinionGridStrategy.new, cfgS1])

/-- Claim C1 counterexample: with the S1 configuration, positive time to
maturity and mid price 5, both quotes clip to 0.99, so the returned pair is
neither strictly ordered nor the (0, 0) no-quote. -/
theorem calculate_quotes_crossed_clip_counterexample :
    (0:ℤ) < stS1.cfg.maturity_timestamp_ms - 0 ∧
    (stS1.calculate_quotes 5 0).1 = (0.99, 0.99) ∧
    ¬((stS1.calculate_quotes 5 0).1.1 < (stS1.calculate_quotes 5 0).1.2 ∨
      (stS1.calculate_quotes 5 0).1 = (0, 0)) := by
  have he := quotes_eval_cold stS1 5 rfl rfl rfl
  have hb : roundToTick (5 - 0.005) 0.01 = 0.99 :=
    roundToTick_clamp_hi (n := 500) (by norm_num) (by norm_num) (by norm_num) (by norm_num)
  have ha : roundToTick (5 + 0.005) 0.01 = 0.99 :=
    roundToTick_clamp_hi (n := 501) (by norm_num) (by norm_num) (by norm_num) (by norm_num)
  refine ⟨by norm_num [stS1, OpinionGridStrategy.new, cfgS1], ?_, ?_⟩
  · rw [he, hb, ha]
  · rw [he, hb, ha]
    norm_num [Prod.mk.injEq]

lemma quotes_S1_value : (stS1.calculate_quotes 0.5 0).1 = (0.5, 0.51) := by
  have he := quotes_eval_cold stS1 0.5 rfl rfl rfl
  have hb : roundToTick (0.5 - 0.005) 0.01 = 0.5 := by
    have h : roundToTick (0.5 - 0.005) 0.01 = ((50:ℤ) : ℝ) * 0.01 :=
      roundToTick_of_bounds (by norm_num) (by norm_num) (by norm_num) (by norm_num)
        (by norm_num)
    rw [h]
    norm_num
  have ha : roundToTick (0.5 + 0.005) 0.01 = 0.51 := by
    have h : roundToTick (0.5 + 0.005) 0.01 = ((51:ℤ) : ℝ) * 0.01 :=
      roundToTick_of_bounds (by norm_num) (by norm_num) (by norm_num) (by norm_num)
        (by norm_num)
    rw [h]
    norm_num
  rw [he, hb, ha]

/-- Claim C8 (amended): under the S1 inputs the code returns bid 0.50 and
ask 0.51 in exact arithmetic: the reservation price is 0.50 and the half
spread is floored to 0.005, and the resulting bid tie of 49.5 ticks rounds
away from zero to 50 ticks. -/
theorem s1_scenario_amended : (stS1.calculate_quotes 0.5 0).1 = (0.5, 0.51) :=
  quotes_S1_value

/-- Claim C8 counterexample: the S1 inputs do not produce the pair
(0.49, 0.51) claimed by the spec, because the 49.5-tick tie rounds up under
nearest-half-away-from-zero. -/
theorem s1_scenario_counterexample : (stS1.calculate_quotes 0.5 0).1 ≠ (0.49, 0.51) := by
  rw [quotes_S1_value]
  norm_num [Prod.mk.injEq]

lemma check_signal_limits {rm : RiskManager} {s : TradeSignal}
    (h : rm.check_signal s = true) :
    rm.is_kill_switch_active = false ∧
    s.size_usd ≤ rm.max_order_size_usd ∧
    (s.side = Side.Buy → s.price ≤ rm.stop_loss_price_ceiling) ∧
    (s.side = Side.Sell → rm.stop_loss_price_floor ≤ s.price) := by
  unfold RiskManager.check_signal at h
  split_ifs at h with h1 h2 h3 h4
  all_goals
    first
      | exact Bool.noConfusion h
      | exact ⟨by simpa using h1, not_lt.mp h2,
          fun hb => not_lt.mp (not_and.mp h3 hb),
          fun hs => not_lt.mp (not_and.mp h4 hs)⟩

lemma update_pnl_limits (rm : RiskManager) (d : ℝ) :
    (rm.update_pnl_and_check_kill d).2.max_order_size_usd = rm.max_order_size_usd ∧
    (rm.update_pnl_and_check_kill d).2.stop_loss_price_floor = rm.stop_loss_price_floor ∧
    (rm.update_pnl_and_check_kill d).2.stop_loss_price_ceiling
      = rm.stop_loss_price_ceiling := by
  by_cases hk : rm.is_kill_switch_active = true
  · simp only [RiskManager.update_pnl_and_check_kill, if_pos hk]
    simp
  · by_cases hp : rm.peak_equity_pnl < rm.total_pnl + d
    · simp only [RiskManager.update_pnl_and_check_kill, if_neg hk, if_pos hp]
      by_cases hd : rm.max_drawdown_usd < (0:ℝ)
      · simp only [if_pos hd]
        simp
      · simp only [if_neg hd]
        simp
    · simp only [RiskManager.update_pnl_and_check_kill, if_neg hk, if_neg hp]
      by_cases hd : rm.max_drawdown_usd < rm.peak_equity_pnl - (rm.total_pnl + d)
      · simp only [if_pos hd]
        simp
      · simp only [if_neg hd]
        simp

lemma check_signal_update_limits {rm : RiskManager} {d : ℝ} {s : TradeSignal}
    (h : (rm.update_pnl_and_check_kill d).2.check_signal s = true) :
    s.size_usd ≤ rm.max_order_size_usd ∧
    (s.side = Side.Buy → s.price ≤ rm.stop_loss_price_ceiling) ∧
    (s.side = Side.Sell → rm.stop_loss_price_floor ≤ s.price) := by
  have hl := check_signal_limits h
  have hlim := update_pnl_limits rm d
  rw [hlim.1, hlim.2.1, hlim.2.2] at hl
  exact ⟨hl.2.1, hl.2.2.1, hl.2.2.2⟩

/-- Claim C3 (amended): every signal the engine emits with logic_tag 1 is
within the order-size cap, and respects the price band on the side that
check_signal actually tests: a Buy is at or below the ceiling and a Sell is
at or above the floor.  check_signal does not compare a Buy against the floor
nor a Sell against the ceiling. -/
theorem emitted_signal_risk_limits_amended (st : OpinionGridStrategy) (rm : RiskManager)
    (sy : ℕ) (bids asks : List (ℝ × ℝ)) (now_ms now_ns : ℤ) (s : TradeSignal)
    (hmem : s ∈ (engineTick st rm sy bids asks now_ms now_ns).1)
    (htag : s.logic_tag = 1) :
    s.size_usd ≤ rm.max_order_size_usd ∧
    (s.side = Side.Buy → s.price ≤ rm.stop_loss_price_ceiling) ∧
    (s.side = Side.Sell → rm.stop_loss_price_floor ≤ s.price) := by
  simp only [engineTick] at hmem
  split_ifs at hmem with h1 h2
  · exact absurd hmem (by simp)
  · simp only [List.mem_singleton] at hmem
    subst hmem
    simp [emergencyCancelSignal] at htag
  · have hf := List.mem_filter.mp hmem
    exact check_signal_update_limits hf.2

/-- Buy quote emitted in the concrete engine-tick evaluation. -/
def sigBuyW : TradeSignal :=
  { strategy_id := 1, target_exchange := Exchange.OpinionLabs, symbol_id := 42,
    side := Side.Buy, price := 0.01, size_usd := 50, logic_tag := 1, created_at_ns := 7 }

/-- Sell quote emitted in the concrete engine-tick evaluation. -/
def sigSellW : TradeSignal :=
  { strategy_id := 1, target_exchange := Exchange.OpinionLabs, symbol_id := 42,
    side := Side.Sell, price := 0.02, size_usd := 50, logic_tag := 1, created_at_ns := 7 }

lemma equity_change_fresh : stS1.calculate_equity_change 0.01 = (0, stS1) := by
  simp only [OpinionGridStrategy.calculate_equity_change]
  rw [if_pos ⟨rfl, rfl, rfl⟩]
  refine Prod.ext rfl ?_
  show OpinionGridStrategy.mk _ _ _ _ _ _ = stS1
  unfold stS1 OpinionGridStrategy.new
  simp only [OpinionGridStrategy.mk.injEq]
  norm_num [stS1, OpinionGridStrategy.new]

lemma update_pnl_fresh : rmW.update_pnl_and_check_kill 0 = (false, rmW) := by
  simp only [RiskManager.update_pnl_and_check_kill, rmW]
  norm_num

lemma quotes_engine_value : (stS1.calculate_quotes 0.01 0).1 = (0.01, 0.02) := by
  have he := quotes_eval_cold stS1 0.01 rfl rfl rfl
  have hb : roundToTick (0.01 - 0.005) 0.01 = 0.01 := by
    have h : roundToTick (0.01 - 0.005) 0.01 = ((1:ℤ) : ℝ) * 0.01 :=
      roundToTick_of_bounds (by norm_num) (by norm_num) (by norm_num) (by norm_num)
        (by norm_num)
    rw [h]
    norm_num
  have ha : roundToTick (0.01 + 0.005) 0.01 = 0.02 := by
    have h : roundToTick (0.01 + 0.005) 0.01 = ((2:ℤ) : ℝ) * 0.01 :=
      roundToTick_of_bounds (by norm_num) (by norm_num) (by norm_num) (by norm_num)
        (by norm_num)
    rw [h]
    norm_num
  rw [he, hb, ha]

lemma check_sigBuyW : rmW.check_signal sigBuyW = true := by
  simp only [RiskManager.check_signal, rmW, sigBuyW]
  norm_num
  decide

lemma check_sigSellW : rmW.check_signal sigSellW = true := by
  simp only [RiskManager.check_signal, rmW, sigSellW]
  norm_num

lemma engineTick_eval :
    (engineTick stS1 rmW 42 [(0.01, 1)] [(0.01, 1)] 0 7).1 = [sigBuyW, sigSellW] := by
  have hmid : ((0.01:ℝ) + 0.01) / 2 = 0.01 := by norm_num
  simp only [engineTick, List.head?_cons, Option.map_some', Option.getD_some]
  rw [if_neg (by norm_num), hmid]
  simp only [equity_change_fresh, update_pnl_fresh]
  rw [if_neg (by simp)]
  simp only [quotes_engine_value, List.filter_cons, List.filter_nil]
  have hcb : rmW.check_signal
      { strategy_id := 1, target_exchange := Exchange.OpinionLabs, symbol_id := 42,
        side := Side.Buy, price := 0.01, size_usd := 50, logic_tag := 1,
        created_at_ns := 7 } = true := check_sigBuyW
  have hcs : rmW.check_signal
      { strategy_id := 1, target_exchange := Exchange.OpinionLabs, symbol_id := 42,
        side := Side.Sell, price := 0.02, size_usd := 50, logic_tag := 1,
        created_at_ns := 7 } = true := check_sigSellW
  rw [if_pos hcb, if_pos hcs]
  rfl

/-- Claim C3 counterexample: the engine publishes a logic_tag 1 Buy signal at
price 0.01, strictly below the risk price floor 0.02, because check_signal
never compares a Buy against the floor. -/
theorem emitted_signal_price_floor_counterexample :
    sigBuyW ∈ (engineTick stS1 rmW 42 [(0.01, 1)] [(0.01, 1)] 0 7).1 ∧
    sigBuyW.logic_tag = 1 ∧
    sigBuyW.price < rmW.stop_loss_price_floor := by
  refine ⟨?_, rfl, by norm_num [sigBuyW, rmW]⟩
  rw [engineTick_eval]
  simp

/-- Witness for the amended C3 at the concrete emitted Sell signal. -/
theorem emitted_signal_risk_limits_amended_witness :
    sigSellW.size_usd ≤ rmW.max_order_size_usd ∧
    (sigSellW.side = Side.Buy → sigSellW.price ≤ rmW.stop_loss_price_ceiling) ∧
    (sigSellW.side = Side.Sell → rmW.stop_loss_price_floor ≤ sigSellW.price) :=
  emitted_signal_risk_limits_amended stS1 rmW 42 [(0.01, 1)] [(0.01, 1)] 0 7 sigSellW
    (by rw [engineTick_eval]; simp) rfl

lemma vol_update_eq_spec (v : RollingVolatility) (p : ℝ) :
    v.update p = volUpdateSpec v p := by
  rcases v with ⟨N, rs, lp, s, sq⟩
  unfold RollingVolatility.update volUpdateSpec
  dsimp only
  set r := (match lp with
    | some last => if 0 < last ∧ 0 < p then Real.log (p / last) else 0
    | none => (0:ℝ)) with hr
  by_cases h0 : r = 0 ∧ rs = []
  · rw [if_pos h0, if_pos h0]
  · rw [if_neg h0, if_neg h0]
    rcases rs with _ | ⟨a, t⟩
    · dsimp only [List.nil_append]
      by_cases hN : N < ([r] : List ℝ).length
      · simp only [if_pos hN]
        dsimp only [List.headI, List.tail_cons]
        have hn : ¬(2 ≤ ([] : List ℝ).length) := by simp
        rw [if_pos (by exact_mod_cast (by simp : (([] : List ℝ).length) < 2)), if_neg hn]
      · simp only [if_neg hN]
        have hn : ¬(2 ≤ ([r] : List ℝ).length) := by simp
        rw [if_pos (by exact_mod_cast (by simp : (([r] : List ℝ).length) < 2)), if_neg hn]
    · dsimp only [List.cons_append]
      by_cases hN : N < (a :: (t ++ [r])).length
      · simp only [if_pos hN]
        dsimp only [List.headI, List.tail_cons]
        by_cases hn : 2 ≤ (t ++ [r]).length
        · rw [if_neg (by exact_mod_cast not_lt.mpr hn), if_pos hn, max_comm]
        · rw [if_pos (by exact_mod_cast not_le.mp hn), if_neg hn]
      · simp only [if_neg hN]
        have hn : 2 ≤ (a :: (t ++ [r])).length := by
          simp
        rw [if_neg (by exact_mod_cast not_lt.mpr hn), if_pos hn, max_comm]

lemma vol_update_nonneg (v : RollingVolatility) (p : ℝ) : 0 ≤ (v.update p).1 := by
  rw [vol_update_eq_spec]
  simp only [volUpdateSpec]
  split_ifs <;> first | exact le_refl _ | exact Real.sqrt_nonneg _

lemma vol_update_two_samples (v : RollingVolatility) (p : ℝ) :
    (v.update p).1 = 0 ∨ 2 ≤ (v.update p).2.returns.length := by
  rw [vol_update_eq_spec]
  simp only [volUpdateSpec]
  split_ifs
  all_goals
    first
      | exact Or.inl rfl
      | (rename_i hlen
         exact Or.inr (by simpa using hlen))

/-- Claim C9 (amended): every update call behaves exactly as the spec
describes, with one warm-up exception: when the computed return is zero and
the window is still empty, the call only records last_price and reports zero
without pushing.  Otherwise the return (log of the price ratio when both
prices are positive, zero otherwise) is pushed and the sums updated, the
oldest entry is popped and subtracted when the window exceeds N, and the
reported sigma is sqrt(max(0, sum_sq/n - (sum/n)^2)) once at least two
samples are held and zero below that; the reported value is never negative. -/
theorem vol_update_spec_amended (v : RollingVolatility) (p : ℝ) :
    v.update p = volUpdateSpec v p ∧
    0 ≤ (v.update p).1 ∧
    ((v.update p).1 = 0 ∨ 2 ≤ (v.update p).2.returns.length) :=
  ⟨vol_update_eq_spec v p, vol_update_nonneg v p, vol_update_two_samples v p⟩

/-- Claim C9 counterexample: the first update on a fresh estimator computes a
zero return and takes the early warm-up exit: the window stays empty, whereas
the claim demands the return be pushed (which would leave the window [0]). -/
theorem vol_update_no_push_counterexample :
    ((RollingVolatility.new 100).update 1).2.returns = ([] : List ℝ) ∧
    ([] : List ℝ) ≠ [(0:ℝ)] := by
  constructor
  · rw [vol_update_fresh]
  · simp

lemma clampF_bounds (p : F64V) :
    0.01 ≤ ((p.fmax (.finite 0.01)).fmin (.finite 0.99)).toDecimal ∧
    ((p.fmax (.finite 0.01)).fmin (.finite 0.99)).toDecimal ≤ 0.99 := by
  rcases p with x | _ | _ | _
  · simp only [F64V.fmax, F64V.fmin, F64V.toDecimal]
    exact ⟨le_min (le_max_right _ _) (by norm_num), min_le_right _ _⟩
  · simp only [F64V.fmax, F64V.fmin, F64V.toDecimal]
    exact ⟨le_min (le_refl _) (by norm_num), min_le_right _ _⟩
  · simp only [F64V.fmax, F64V.fmin, F64V.toDecimal]
    norm_num
  · simp only [F64V.fmax, F64V.fmin, F64V.toDecimal]
    exact ⟨le_min (le_refl _) (by norm_num), min_le_right _ _⟩

lemma roundToTickF_bounds (f : F64V) (tick : ℝ) :
    0.01 ≤ roundToTickF f tick ∧ roundToTickF f tick ≤ 0.99 := by
  unfold roundToTickF
  exact clampF_bounds _

/-- Claim C6 (amended): pathological intermediate values are clamped, not
suppressed: whenever time to maturity is positive, calculate_quotes on the
special-value model emits a pair whose legs always lie in [0.01, 0.99] (nan
and negative infinity clamp to 0.01, positive infinity to 0.99), for every
inventory value including nan and the infinities; the (0, 0) no-quote arises
only from nonpositive time to maturity, never from nan or infinity. -/
theorem pathological_values_clamped_amended (cfg : StrategyConfig) (q : F64V)
    (vol : RollingVolatility) (mid : ℝ) (now_ms : ℤ)
    (hT : 0 < cfg.maturity_timestamp_ms - now_ms) :
    0.01 ≤ (calculateQuotesF cfg q vol mid now_ms).1 ∧
    (calculateQuotesF cfg q vol mid now_ms).1 ≤ 0.99 ∧
    0.01 ≤ (calculateQuotesF cfg q vol mid now_ms).2 ∧
    (calculateQuotesF cfg q vol mid now_ms).2 ≤ 0.99 := by
  simp only [calculateQuotesF]
  rw [if_neg (not_le.mpr hT)]
  exact ⟨(roundToTickF_bounds _ _).1, (roundToTickF_bounds _ _).2,
    (roundToTickF_bounds _ _).1, (roundToTickF_bounds _ _).2⟩

/-- Witness for the amended C6 at infinite restored inventory. -/
theorem pathological_values_clamped_amended_witness :
    0.01 ≤ (calculateQuotesF cfgS1 F64V.pinf (RollingVolatility.new 100) 0.5 0).1 ∧
    (calculateQuotesF cfgS1 F64V.pinf (RollingVolatility.new 100) 0.5 0).1 ≤ 0.99 ∧
    0.01 ≤ (calculateQuotesF cfgS1 F64V.pinf (RollingVolatility.new 100) 0.5 0).2 ∧
    (calculateQuotesF cfgS1 F64V.pinf (RollingVolatility.new 100) 0.5 0).2 ≤ 0.99 :=
  pathological_values_clamped_amended cfgS1 F64V.pinf (RollingVolatility.new 100) 0.5 0
    (by norm_num [cfgS1])

lemma reservation_pinf_nan (t m : ℝ) :
    reservationPriceF F64V.pinf 0.005 0 t m = F64V.nan := by
  unfold reservationPriceF
  norm_num [F64V.mul, F64V.sub, F64V.add, F64V.neg]

lemma nan_sub (x : F64V) : F64V.sub F64V.nan x = F64V.nan := by
  rcases x <;> rfl

lemma nan_add (x : F64V) : F64V.add F64V.nan x = F64V.nan := by
  rcases x <;> rfl

lemma roundToTickF_nan (tick : ℝ) : roundToTickF F64V.nan tick = 0.01 := by
  unfold roundToTickF
  norm_num [F64V.div, F64V.round, F64V.mul, F64V.fmax, F64V.fmin, F64V.toDecimal]

/-- Claim C6 counterexample: with the S1 configuration and an infinite
restored inventory, the reservation price is nan (infinity times the zero
sigma squared), yet calculate_quotes does not treat the tick as no-quote: it
emits the clamped pair (0.01, 0.01), which is not (0, 0). -/
theorem nan_reservation_emits_pair_counterexample :
    reservationPriceF F64V.pinf
        (effectiveGamma cfgS1 (cfgS1.maturity_timestamp_ms - 0))
        ((RollingVolatility.new 100).update 0.5).1
        (((cfgS1.maturity_timestamp_ms - 0 : ℤ) : ℝ) / (1000 * 3600 * 24)) 0.5
      = F64V.nan ∧
    calculateQuotesF cfgS1 F64V.pinf (RollingVolatility.new 100) 0.5 0 = (0.01, 0.01) ∧
    ((0.01 : ℝ), (0.01 : ℝ)) ≠ ((0 : ℝ), (0 : ℝ)) := by
  have hγ : effectiveGamma cfgS1 (cfgS1.maturity_timestamp_ms - 0) = 0.005 := by
    simp only [effectiveGamma, cfgS1]
    norm_num
  have hσ : ((RollingVolatility.new 100).update 0.5).1 = 0 := by
    rw [vol_update_fresh]
  refine ⟨?_, ?_, by norm_num [Prod.mk.injEq]⟩
  · rw [hγ, hσ, reservation_pinf_nan]
  · simp only [calculateQuotesF]
    rw [if_neg (by norm_num [cfgS1])]
    rw [hγ, hσ, reservation_pinf_nan]
    rw [nan_sub, nan_add, roundToTickF_nan]

end MMCore
